import Mathlib

/-!
Verification of the VideoStitcher script (`videostitcher.py`).

The script's logic is embedded shallowly: Python strings become lists of
characters, the filesystem becomes the list of currently-existing paths,
media clips are identified with their durations (rationals standing in for
the script's real-number arithmetic), and the interactive environment
(file picker answers, load results, export result) becomes an explicit
record of inputs.  The definitions below are transcribed from the source;
the theorems at the end settle the specification claims.
-/

namespace VideoStitcher

/-- Python strings modelled as lists of characters. -/
abbrev PStr := List Char

/-- ASCII whitespace as recognised by Python `str.strip`. -/
def isPySpace (c : Char) : Bool :=
  c = ' ' || c = '\t' || c = '\n' || c = '\r' || c = '\x0b' || c = '\x0c'

/-- Python `str.strip()`: drop leading and trailing whitespace. -/
def stripL (l : PStr) : PStr :=
  ((l.dropWhile isPySpace).reverse.dropWhile isPySpace).reverse

/-- Python `str.lower()`. -/
def lowerL (l : PStr) : PStr := l.map Char.toLower

/-- Python `str.rfind(c)`: index of the last occurrence of `c`, `-1` if absent. -/
def rfindI (c : Char) : PStr → ℤ
  | [] => -1
  | a :: t =>
    let r := rfindI c t
    if 0 ≤ r then r + 1 else if a = c then 0 else -1

/-- `os.path.join` (POSIX) restricted to the two-argument form used by the script. -/
def pjoin (a b : PStr) : PStr :=
  if b.head? = some '/' then b
  else if a = [] ∨ a.getLast? = some '/' then a ++ b
  else a ++ '/' :: b

/-- The index at which `os.path.splitext` splits its argument (`l.length` when
there is no extension): the last dot, provided that dot lies after the last
slash and some earlier character of the final component is not a dot (leading
dots of a file name do not start an extension). -/
def splitextIdx (l : PStr) : ℕ :=
  let sep := rfindI '/' l
  let dot := rfindI '.' l
  if sep < dot ∧ ((l.drop (sep + 1).toNat).take (dot - sep - 1).toNat).any (fun c => c != '.') = true
  then dot.toNat
  else l.length

/-- `os.path.splitext` (POSIX): root and extension. -/
def splitextL (l : PStr) : PStr × PStr := (l.take (splitextIdx l), l.drop (splitextIdx l))

/-- `os.path.basename` (POSIX): everything after the last slash. -/
def basenameL (p : PStr) : PStr := p.drop (rfindI '/' p + 1).toNat

/-- Decimal rendering of a natural number (Python `str` on a nonnegative int). -/
def natChars (n : ℕ) : PStr :=
  if n = 0 then ['0'] else ((Nat.digits 10 n).map Nat.digitChar).reverse

/-- Boolean test: does the list start with the pattern? -/
def startsWithL : PStr → PStr → Bool
  | _, [] => true
  | [], _ :: _ => false
  | a :: as, b :: bs => if a = b then startsWithL as bs else false

/-- Boolean test: does `hay` contain `pat` as a contiguous run? -/
def containsL : PStr → PStr → Bool
  | _, [] => true
  | [], _ :: _ => false
  | a :: t, b :: bs => startsWithL (a :: t) (b :: bs) || containsL t (b :: bs)

/-- The default output name substituted for an empty base name
(`videostitcher.py`, line 57). -/
def untitled : PStr := "Untitled music video".data

/-- The `while os.path.exists(candidate)` loop of `safe_save_path`
(`videostitcher.py`, lines 60-63).  The filesystem is the list `fs` of
existing paths; `fuel` bounds the number of existence checks, and
`safe_save_path` below supplies enough fuel for the loop to always finish. -/
def resolveLoop (fs : List PStr) (root ext : PStr) : ℕ → PStr → ℕ → Option PStr
  | 0, _, _ => none
  | fuel + 1, candidate, i =>
    if candidate ∈ fs then
      resolveLoop fs root ext fuel (root ++ '-' :: (natChars i ++ ext)) (i + 1)
    else some candidate

/-- The candidate path first tried by `safe_save_path`
(`videostitcher.py`, lines 57-58). -/
def initialCandidate (desktop base_name extension : PStr) : PStr :=
  pjoin desktop ((if stripL base_name = [] then untitled else stripL base_name) ++ extension)

/-- `safe_save_path(base_name, extension)` (`videostitcher.py`, lines 55-64),
with the desktop directory and the set of existing paths made explicit. -/
def safe_save_path (fs : List PStr) (desktop base_name extension : PStr) : Option PStr :=
  resolveLoop fs
    (splitextL (initialCandidate desktop base_name extension)).1
    (splitextL (initialCandidate desktop base_name extension)).2
    (fs.length + 1)
    (initialCandidate desktop base_name extension)
    1

/-- The successive candidates examined by `safe_save_path`: the initial
candidate, then `root-1 + ext`, `root-2 + ext`, ... -/
def candSeq (desktop base_name extension : PStr) : ℕ → PStr
  | 0 => initialCandidate desktop base_name extension
  | k + 1 =>
      (splitextL (initialCandidate desktop base_name extension)).1 ++
        '-' :: (natChars (k + 1) ++ (splitextL (initialCandidate desktop base_name extension)).2)

/-- `loops = max(1, math.ceil(audio_dur / total_dur))` (`videostitcher.py`, line 123). -/
def loopsFor (audio_dur total_dur : ℚ) : ℤ := max 1 ⌈audio_dur / total_dur⌉

/-- Python list repetition `l * n` (for a nonnegative count). -/
def pyListMul {α : Type} (l : List α) : ℕ → List α
  | 0 => []
  | n + 1 => pyListMul l n ++ l

/-- `seq = clips * loops` (`videostitcher.py`, line 127), with clips identified
with their durations. -/
def buildSeq (clips : List ℚ) (audio_dur : ℚ) : List ℚ :=
  pyListMul clips (loopsFor audio_dur clips.sum).toNat

/-- Duration of the concatenation of the looped sequence (line 128). -/
def rawDuration (clips : List ℚ) (audio_dur : ℚ) : ℚ := (buildSeq clips audio_dur).sum

/-- Duration of the final video after the trimming step
(`videostitcher.py`, lines 129-130): `subclip(0, audio_dur)` when too long. -/
def finalDuration (clips : List ℚ) (audio_dur : ℚ) : ℚ :=
  if rawDuration clips audio_dur > audio_dur then audio_dur else rawDuration clips audio_dur

/-- Terminal outcomes of one run of `main()`. -/
inductive Outcome
  | cancelled
  | videoLoadError
  | emptyContent
  | audioLoadError
  | exportError
  | success
deriving DecidableEq

/-- The interactive environment of one run: picker results, user answers, the
load/export behaviour of the media library, and the filesystem. -/
structure Env where
  video_paths : List PStr
  proceed_answer : PStr
  load_video : PStr → Except PStr (Option ℚ)
  audio_paths : List PStr
  load_audio : PStr → Except PStr (Option ℚ)
  custom_name : PStr
  export_ok : Bool
  export_err : PStr
  fs : List PStr
  desktop : PStr

/-- Observable result of one run of `main()`: the outcome, the error message
printed (if any), the output file written (if any), and how many media handles
were opened and closed. -/
structure RunState where
  outcome : Outcome
  errorMsg : Option PStr
  written : Option PStr
  openedVideos : ℕ
  closedVideos : ℕ
  audioOpened : Bool
  audioClosed : Bool
  builtSeq : Bool
  exportAttempted : Bool
deriving DecidableEq

/-- The video-loading loop (`videostitcher.py`, lines 83-92): clips and the
running total accumulate until the list is exhausted or a load fails, in which
case the clips opened so far and the printed message are reported. -/
def loadVideos (load : PStr → Except PStr (Option ℚ)) :
    List PStr → List ℚ → ℚ → Except (List ℚ × PStr) (List ℚ × ℚ)
  | [], clips, total_dur => .ok (clips, total_dur)
  | p :: ps, clips, total_dur =>
    match load p with
    | .ok d => loadVideos load ps (clips ++ [d.getD 0]) (total_dur + d.getD 0)
    | .error e =>
        .error (clips, '\n' :: ("Error loading ".data ++ (basenameL p ++ (" -> ".data ++ e))))

/-- The export name (`videostitcher.py`, lines 113-118): the stripped custom
name, or `"<audio stem> music video"` when the custom name strips to empty. -/
def exportNameOf (custom_name audio_path : PStr) : PStr :=
  if stripL custom_name = [] then (splitextL (basenameL audio_path)).1 ++ " music video".data
  else stripL custom_name

/-- `main()` (`videostitcher.py`, lines 69-150) as a function of the run
environment. -/
def runMain (env : Env) : RunState :=
  if env.video_paths = [] then
    { outcome := .cancelled, errorMsg := none, written := none, openedVideos := 0,
      closedVideos := 0, audioOpened := false, audioClosed := false,
      builtSeq := false, exportAttempted := false }
  else if lowerL env.proceed_answer ≠ ['y'] then
    { outcome := .cancelled, errorMsg := none, written := none, openedVideos := 0,
      closedVideos := 0, audioOpened := false, audioClosed := false,
      builtSeq := false, exportAttempted := false }
  else
    match loadVideos env.load_video env.video_paths [] 0 with
    | .error (clips, msg) =>
      { outcome := .videoLoadError, errorMsg := some msg, written := none,
        openedVideos := clips.length, closedVideos := 0, audioOpened := false,
        audioClosed := false, builtSeq := false, exportAttempted := false }
    | .ok (clips, total_dur) =>
      if total_dur ≤ 0 then
        { outcome := .emptyContent, errorMsg := some "Video content is empty.".data,
          written := none, openedVideos := clips.length, closedVideos := 0,
          audioOpened := false, audioClosed := false, builtSeq := false,
          exportAttempted := false }
      else
        match env.audio_paths with
        | [] =>
          { outcome := .cancelled, errorMsg := none, written := none,
            openedVideos := clips.length, closedVideos := 0, audioOpened := false,
            audioClosed := false, builtSeq := false, exportAttempted := false }
        | audio_path :: _ =>
          match env.load_audio audio_path with
          | .error e =>
            { outcome := .audioLoadError, errorMsg := some ("Audio error: ".data ++ e),
              written := none, openedVideos := clips.length, closedVideos := 0,
              audioOpened := false, audioClosed := false, builtSeq := false,
              exportAttempted := false }
          | .ok _d =>
            if env.export_ok then
              { outcome := .success, errorMsg := none,
                written := safe_save_path env.fs env.desktop
                  (exportNameOf env.custom_name audio_path) ".mp4".data,
                openedVideos := clips.length, closedVideos := clips.length,
                audioOpened := true, audioClosed := true, builtSeq := true,
                exportAttempted := true }
            else
              { outcome := .exportError,
                errorMsg := some ("Export error: ".data ++ env.export_err),
                written := none, openedVideos := clips.length, closedVideos := 0,
                audioOpened := true, audioClosed := false, builtSeq := true,
                exportAttempted := true }

/-- The entry point (`videostitcher.py`, lines 155-159): exit code 1 on a
non-macOS platform, otherwise `main()` runs and the process exits with 0. -/
def program (platform : PStr) (env : Env) : ℕ :=
  if platform ≠ "darwin".data then 1
  else
    let _ := runMain env
    0

/-! ### Sequence arithmetic (claims C1, C2) -/

lemma loopsFor_one_le (a t : ℚ) : 1 ≤ loopsFor a t := le_max_left 1 _

lemma loopsFor_toNat_cast (a t : ℚ) :
    (((loopsFor a t).toNat : ℕ) : ℚ) = ((loopsFor a t : ℤ) : ℚ) := by
  rw [← Int.cast_natCast, Int.toNat_of_nonneg (le_trans zero_le_one (loopsFor_one_le a t))]

lemma pyListMul_eq_flatten {α : Type} (l : List α) (n : ℕ) :
    pyListMul l n = (List.replicate n l).flatten := by
  induction n with
  | zero => rfl
  | succ n ih =>
      rw [List.replicate_succ', List.flatten_append]
      simp [pyListMul, ih]

lemma pyListMul_sum (l : List ℚ) (n : ℕ) : (pyListMul l n).sum = (n : ℚ) * l.sum := by
  induction n with
  | zero => simp [pyListMul]
  | succ n ih =>
      have h : pyListMul l (n + 1) = pyListMul l n ++ l := by simp [pyListMul]
      rw [h, List.sum_append, ih]
      push_cast
      ring

/-- C1: for a non-empty duration list with positive total and any target, the
computed loop count is `max 1 ⌈T / sum D⌉`, hence at least 1; moreover for a
positive target the `max` is redundant and the count is exactly `⌈T / sum D⌉`. -/
theorem loops_eq_ceil_formula (D : List ℚ) (T : ℚ) (hne : D ≠ []) (hpos : 0 < D.sum) :
    loopsFor T D.sum = max 1 ⌈T / D.sum⌉ ∧ 1 ≤ loopsFor T D.sum ∧
      (0 < T → loopsFor T D.sum = ⌈T / D.sum⌉) := by
  refine ⟨rfl, loopsFor_one_le T D.sum, fun hT => ?_⟩
  have h1 : 0 < ⌈T / D.sum⌉ := Int.ceil_pos.mpr (div_pos hT hpos)
  exact max_eq_right (by omega)

/-- Witness for C1: the claim instantiated at `D = [2]`, `T = 5`. -/
theorem loops_eq_ceil_formula_inst :
    (([(2:ℚ)] ≠ []) ∧ (0 < List.sum [(2:ℚ)])) ∧
      (loopsFor 5 (List.sum [(2:ℚ)]) = max 1 ⌈(5:ℚ) / List.sum [(2:ℚ)]⌉ ∧
        1 ≤ loopsFor 5 (List.sum [(2:ℚ)]) ∧
        (0 < (5:ℚ) → loopsFor 5 (List.sum [(2:ℚ)]) = ⌈(5:ℚ) / List.sum [(2:ℚ)]⌉)) :=
  ⟨⟨by simp, by simp⟩, loops_eq_ceil_formula [2] 5 (by simp) (by simp)⟩

/-- C2: the built sequence is the clip list repeated `loops` times with order
preserved in each repetition, and the final (trimmed) duration equals
`min T (sum D * loops)`, hence never exceeds `T`. -/
theorem seq_repeat_and_trim (D : List ℚ) (T : ℚ) :
    buildSeq D T = (List.replicate (loopsFor T D.sum).toNat D).flatten ∧
    finalDuration D T = min T (D.sum * ((loopsFor T D.sum : ℤ) : ℚ)) ∧
    finalDuration D T ≤ T := by
  have hraw : rawDuration D T = D.sum * ((loopsFor T D.sum : ℤ) : ℚ) := by
    unfold rawDuration buildSeq
    rw [pyListMul_sum, loopsFor_toNat_cast]
    ring
  have hmin : finalDuration D T = min T (D.sum * ((loopsFor T D.sum : ℤ) : ℚ)) := by
    unfold finalDuration
    rw [hraw]
    by_cases h : D.sum * ((loopsFor T D.sum : ℤ) : ℚ) > T
    · rw [if_pos h]
      exact (min_eq_left h.le).symm
    · rw [if_neg h]
      exact (min_eq_right (le_of_not_lt h)).symm
  exact ⟨pyListMul_eq_flatten D (loopsFor T D.sum).toNat, hmin,
    hmin ▸ min_le_left T _⟩

example : loopsFor 25 (List.sum [(10:ℚ), 10]) = 2 := by
  have hc : ⌈(5:ℚ)/4⌉ = 2 := by
    rw [Int.ceil_eq_iff]
    norm_num
  norm_num [loopsFor, hc]

example : finalDuration [(10:ℚ), 10] 25 = 25 := by
  have hc : ⌈(5:ℚ)/4⌉ = 2 := by
    rw [Int.ceil_eq_iff]
    norm_num
  norm_num [finalDuration, rawDuration, buildSeq, loopsFor, hc, pyListMul]

example : loopsFor 10 (List.sum [(30:ℚ)]) = 1 := by
  have hc : ⌈(1:ℚ)/3⌉ = 1 := by
    rw [Int.ceil_eq_iff]
    norm_num
  norm_num [loopsFor, hc]

example : finalDuration [(30:ℚ)] 10 = 10 := by
  have hc : ⌈(1:ℚ)/3⌉ = 1 := by
    rw [Int.ceil_eq_iff]
    norm_num
  norm_num [finalDuration, rawDuration, buildSeq, loopsFor, hc, pyListMul]

/-! ### Path resolution (claims C3, C7, C8, C10) -/

lemma splitextL_fst_append_snd (l : PStr) : (splitextL l).1 ++ (splitextL l).2 = l :=
  List.take_append_drop _ l

lemma digitChar_inj_lt (d e : ℕ) (hd : d < 10) (he : e < 10)
    (h : Nat.digitChar d = Nat.digitChar e) : d = e := by
  revert h
  interval_cases d <;> interval_cases e <;> decide

lemma map_digitChar_inj : ∀ l1 l2 : List ℕ, (∀ d ∈ l1, d < 10) → (∀ d ∈ l2, d < 10) →
    l1.map Nat.digitChar = l2.map Nat.digitChar → l1 = l2 := by
  intro l1
  induction l1 with
  | nil =>
      intro l2 _ _ h
      cases l2 with
      | nil => rfl
      | cons b bs => simp at h
  | cons a as ih =>
      intro l2 h1 h2 h
      cases l2 with
      | nil => simp at h
      | cons b bs =>
          simp only [List.map_cons, List.cons.injEq] at h
          have hab := digitChar_inj_lt a b (h1 a (by simp)) (h2 b (by simp)) h.1
          have hrest := ih bs (fun d hd => h1 d (by simp [hd])) (fun d hd => h2 d (by simp [hd])) h.2
          rw [hab, hrest]

lemma natChars_injective : Function.Injective natChars := by
  intro m n h
  unfold natChars at h
  by_cases hm : m = 0 <;> by_cases hn : n = 0
  · rw [hm, hn]
  · exfalso
    rw [if_pos hm, if_neg hn] at h
    have h2 : (Nat.digits 10 n).map Nat.digitChar = ['0'] := by
      have := congrArg List.reverse h
      simpa using this.symm
    have h3 : Nat.digits 10 n = [0] := by
      apply map_digitChar_inj _ [0]
        (fun d hd => Nat.digits_lt_base (by norm_num) hd) (by simp)
      rw [h2]
      rfl
    have h4 := Nat.ofDigits_digits 10 n
    rw [h3] at h4
    simp [Nat.ofDigits] at h4
    exact hn h4.symm
  · exfalso
    rw [if_neg hm, if_pos hn] at h
    have h2 : (Nat.digits 10 m).map Nat.digitChar = ['0'] := by
      have := congrArg List.reverse h
      simpa using this
    have h3 : Nat.digits 10 m = [0] := by
      apply map_digitChar_inj _ [0]
        (fun d hd => Nat.digits_lt_base (by norm_num) hd) (by simp)
      rw [h2]
      rfl
    have h4 := Nat.ofDigits_digits 10 m
    rw [h3] at h4
    simp [Nat.ofDigits] at h4
    exact hm h4.symm
  · rw [if_neg hm, if_neg hn] at h
    have h2 : (Nat.digits 10 m).map Nat.digitChar = (Nat.digits 10 n).map Nat.digitChar := by
      have := congrArg List.reverse h
      simpa using this
    have h3 := map_digitChar_inj _ _
      (fun d hd => Nat.digits_lt_base (by norm_num) hd)
      (fun d hd => Nat.digits_lt_base (by norm_num) hd) h2
    have h4 := congrArg (Nat.ofDigits 10) h3
    rwa [Nat.ofDigits_digits, Nat.ofDigits_digits] at h4

lemma candSeq_zero_ne_succ (d b e : PStr) (k : ℕ) :
    candSeq d b e 0 ≠ candSeq d b e (k + 1) := by
  intro h
  simp only [candSeq] at h
  have hic := splitextL_fst_append_snd (initialCandidate d b e)
  have hl := congrArg List.length h
  have h2 := congrArg List.length hic
  simp only [List.length_append, List.length_cons] at hl h2
  omega

lemma candSeq_succ_inj (d b e : PStr) (i j : ℕ)
    (h : candSeq d b e (i + 1) = candSeq d b e (j + 1)) : i = j := by
  simp only [candSeq] at h
  have h1 := List.append_cancel_left h
  simp only [List.cons.injEq, true_and] at h1
  have h2 := List.append_cancel_right h1
  have h3 := natChars_injective h2
  omega

lemma candSeq_injective (d b e : PStr) : Function.Injective (candSeq d b e) := by
  intro i j h
  rcases i with _ | i <;> rcases j with _ | j
  · rfl
  · exact absurd h (candSeq_zero_ne_succ d b e j)
  · exact absurd h.symm (candSeq_zero_ne_succ d b e i)
  · have := candSeq_succ_inj d b e i j h
    omega

lemma exists_unused (fs : List PStr) (g : ℕ → PStr) (hinj : Function.Injective g) :
    ∃ j, j ≤ fs.length ∧ g j ∉ fs := by
  by_contra hc
  push_neg at hc
  have hnodup : ((List.range (fs.length + 1)).map g).Nodup :=
    (List.nodup_range _).map hinj
  have hsub : ((List.range (fs.length + 1)).map g).toFinset ⊆ fs.toFinset := by
    intro x hx
    simp only [List.mem_toFinset, List.mem_map, List.mem_range] at hx
    obtain ⟨j, hj, rfl⟩ := hx
    simp only [List.mem_toFinset]
    exact hc j (by omega)
  have hcard := Finset.card_le_card hsub
  rw [List.toFinset_card_of_nodup hnodup] at hcard
  have h2 : fs.toFinset.card ≤ fs.length := fs.toFinset_card_le
  simp only [List.length_map, List.length_range] at hcard
  omega

lemma resolveLoop_reaches (fs : List PStr) (root ext : PStr) (g : ℕ → PStr)
    (hg : ∀ m : ℕ, g (m + 1) = root ++ '-' :: (natChars (m + 1) ++ ext)) :
    ∀ fuel k n : ℕ, k ≤ n → n - k < fuel →
      (∀ m, k ≤ m → m < n → g m ∈ fs) → g n ∉ fs →
      resolveLoop fs root ext fuel (g k) (k + 1) = some (g n) := by
  intro fuel
  induction fuel with
  | zero =>
      intro k n hkn hf _ _
      omega
  | succ fuel ih =>
      intro k n hkn hf hmem hfree
      by_cases hk : k = n
      · subst hk
        simp [resolveLoop, hfree]
      · have hklt : k < n := by omega
        have hkmem : g k ∈ fs := hmem k le_rfl hklt
        have hstep : resolveLoop fs root ext (fuel + 1) (g k) (k + 1) =
            resolveLoop fs root ext fuel (root ++ '-' :: (natChars (k + 1) ++ ext)) (k + 2) := by
          simp [resolveLoop, hkmem]
        rw [hstep, ← hg k]
        exact ih (k + 1) n (by omega) (by omega) (fun m hm1 hm2 => hmem m (by omega) hm2) hfree

lemma safe_save_path_characterization (fs : List PStr) (d b e : PStr) :
    ∃ n, candSeq d b e n ∉ fs ∧ (∀ m, m < n → candSeq d b e m ∈ fs) ∧
      safe_save_path fs d b e = some (candSeq d b e n) := by
  obtain ⟨j, hj, hjfree⟩ := exists_unused fs (candSeq d b e) (candSeq_injective d b e)
  have hex : ∃ n, candSeq d b e n ∉ fs := ⟨j, hjfree⟩
  have hn_le : Nat.find hex ≤ j := Nat.find_min' hex hjfree
  refine ⟨Nat.find hex, Nat.find_spec hex, ?_, ?_⟩
  · intro m hm
    exact not_not.mp (Nat.find_min hex hm)
  · have happ := resolveLoop_reaches fs
      (splitextL (initialCandidate d b e)).1 (splitextL (initialCandidate d b e)).2
      (candSeq d b e) (fun m => rfl)
      (fs.length + 1) 0 (Nat.find hex) (Nat.zero_le _) (by omega)
      (fun m _ hm => not_not.mp (Nat.find_min hex hm)) (Nat.find_spec hex)
    exact happ

/-- C3: `safe_save_path` returns the first candidate in the sequence
"initial candidate, then `root-1+ext`, `root-2+ext`, ..." (suffixes tried in
increasing order) that does not exist on disk; in particular the returned path
never already exists at resolution time. -/
theorem resolution_returns_first_unused (fs : List PStr) (d b e : PStr) :
    ∃ n, candSeq d b e n ∉ fs ∧ (∀ m, m < n → candSeq d b e m ∈ fs) ∧
      safe_save_path fs d b e = some (candSeq d b e n) :=
  safe_save_path_characterization fs d b e

/-- C10: the successive candidates of `safe_save_path` are pairwise distinct,
so with the filesystem a finite list of existing paths the existence-check
loop always terminates with a result. -/
theorem resolution_terminates (fs : List PStr) (d b e : PStr) :
    (∀ i j : ℕ, i ≠ j → candSeq d b e i ≠ candSeq d b e j) ∧
      (safe_save_path fs d b e).isSome = true := by
  constructor
  · intro i j hij hEq
    exact hij (candSeq_injective d b e hEq)
  · obtain ⟨n, _, _, h⟩ := safe_save_path_characterization fs d b e
    rw [h]
    rfl

/-- C8: when the initial candidate does not already exist, `safe_save_path`
returns it unchanged, with no suffix appended. -/
theorem no_collision_returns_candidate (fs : List PStr) (d b e : PStr)
    (h : initialCandidate d b e ∉ fs) :
    safe_save_path fs d b e = some (initialCandidate d b e) := by
  unfold safe_save_path
  simp [resolveLoop, h]

/-- Witness for C8 at a concrete name on an empty filesystem. -/
theorem no_collision_returns_candidate_inst :
    initialCandidate "/Users/u/Desktop".data "Song".data ".mp4".data ∉ ([] : List PStr) ∧
      safe_save_path [] "/Users/u/Desktop".data "Song".data ".mp4".data =
        some (initialCandidate "/Users/u/Desktop".data "Song".data ".mp4".data) :=
  ⟨by simp, no_collision_returns_candidate [] _ _ _ (by simp)⟩

/-- C7: a base name that strips to empty (for example the empty string) is
replaced by the literal default name "Untitled music video" before the
candidate path is built. -/
theorem empty_name_gets_default (fs : List PStr) (d e b : PStr) (h : stripL b = []) :
    initialCandidate d b e = pjoin d (untitled ++ e) ∧
      safe_save_path fs d b e = safe_save_path fs d untitled e := by
  have hb : initialCandidate d b e = pjoin d (untitled ++ e) := by
    unfold initialCandidate
    rw [if_pos h]
  have hu : stripL untitled = untitled := by decide
  have hiu : initialCandidate d untitled e = pjoin d (untitled ++ e) := by
    unfold initialCandidate
    rw [hu]
    rw [if_neg (by decide : ¬ (untitled = ([] : PStr)))]
  have hcc : initialCandidate d b e = initialCandidate d untitled e := hb.trans hiu.symm
  refine ⟨hb, ?_⟩
  unfold safe_save_path
  rw [hcc]

example : candSeq "/d".data "Song".data ".mp4".data 0 = "/d/Song.mp4".data := by decide

example :
    safe_save_path ["/d/Song.mp4".data] "/d".data "Song".data ".mp4".data =
      some "/d/Song-1.mp4".data := by
  have h1 : natChars 1 = ['1'] := by
    norm_num [natChars, Nat.digits_def']
    decide
  simp only [safe_save_path, resolveLoop, h1]
  decide

example :
    safe_save_path ["/d/Song.mp4".data, "/d/Song-1.mp4".data] "/d".data "Song".data ".mp4".data =
      some "/d/Song-2.mp4".data := by
  have h1 : natChars 1 = ['1'] := by
    norm_num [natChars, Nat.digits_def']
    decide
  have h2 : natChars 2 = ['2'] := by
    norm_num [natChars, Nat.digits_def']
    decide
  simp only [safe_save_path, resolveLoop, h1, h2]
  decide

/-- Witness for C7: a whitespace-only base name resolves like the default name. -/
theorem empty_name_gets_default_inst :
    stripL "   ".data = [] ∧
      (initialCandidate "/d".data "   ".data ".mp4".data =
          pjoin "/d".data (untitled ++ ".mp4".data) ∧
        safe_save_path [] "/d".data "   ".data ".mp4".data =
          safe_save_path [] "/d".data untitled ".mp4".data) :=
  ⟨by decide, empty_name_gets_default [] "/d".data ".mp4".data "   ".data (by decide)⟩

/-! ### Workflow outcomes (claims C4, C5, C6, C9) -/

lemma startsWithL_append (pat rest : PStr) : startsWithL (pat ++ rest) pat = true := by
  induction pat with
  | nil => simp [startsWithL]
  | cons a as ih => simp [startsWithL, ih]

lemma containsL_append (pre pat post : PStr) :
    containsL (pre ++ (pat ++ post)) pat = true := by
  cases pat with
  | nil => simp [containsL]
  | cons b bs =>
      induction pre with
      | nil =>
          have h := startsWithL_append (b :: bs) post
          simp only [List.cons_append] at h ⊢
          simp [containsL, h]
      | cons a t ih =>
          simp only [List.cons_append] at ih ⊢
          simp [containsL, ih]

lemma loadVideos_error_shape (load : PStr → Except PStr (Option ℚ)) :
    ∀ (ps : List PStr) (acc : List ℚ) (t : ℚ) (cl : List ℚ) (msg : PStr),
      loadVideos load ps acc t = .error (cl, msg) →
      ∃ p ∈ ps, ∃ er, load p = .error er ∧
        msg = '\n' :: ("Error loading ".data ++ (basenameL p ++ (" -> ".data ++ er))) := by
  intro ps
  induction ps with
  | nil =>
      intro acc t cl msg h
      simp [loadVideos] at h
  | cons p ps ih =>
      intro acc t cl msg h
      rw [loadVideos] at h
      cases hl : load p with
      | ok d =>
          rw [hl] at h
          dsimp at h
          obtain ⟨q, hq, er, her, hmsg⟩ := ih _ _ _ _ h
          exact ⟨q, by simp [hq], er, her, hmsg⟩
      | error er =>
          rw [hl] at h
          dsimp at h
          simp only [Except.error.injEq, Prod.mk.injEq] at h
          exact ⟨p, by simp, er, hl, h.2.symm⟩

/-- C4: when the loaded videos' total duration is at most 0, the run aborts
with the empty-content outcome: no file is written, no sequence is built, and
export is never attempted. -/
theorem empty_content_aborts (env : Env) (clips : List ℚ) (total : ℚ)
    (hv : env.video_paths ≠ [])
    (hy : lowerL env.proceed_answer = ['y'])
    (hload : loadVideos env.load_video env.video_paths [] 0 = .ok (clips, total))
    (htot : total ≤ 0) :
    (runMain env).outcome = .emptyContent ∧ (runMain env).written = none ∧
      (runMain env).builtSeq = false ∧ (runMain env).exportAttempted = false := by
  unfold runMain
  rw [if_neg hv, if_neg (by simp [hy]), hload]
  dsimp
  rw [if_pos htot]
  exact ⟨rfl, rfl, rfl, rfl⟩

/-- A concrete run environment whose single video loads with duration 0. -/
def envZero : Env :=
  { video_paths := ["v.mp4".data]
    proceed_answer := "y".data
    load_video := fun _ => .ok (some 0)
    audio_paths := ["song.mp3".data]
    load_audio := fun _ => .ok (some 10)
    custom_name := []
    export_ok := true
    export_err := []
    fs := []
    desktop := "/d".data }

lemma lowerL_y : lowerL ['y'] = ['y'] := by decide

/-- Witness for C4: a zero-duration video list aborts with empty content. -/
theorem empty_content_aborts_inst :
    (envZero.video_paths ≠ [] ∧ lowerL envZero.proceed_answer = ['y'] ∧
      loadVideos envZero.load_video envZero.video_paths [] 0 = .ok ([0], 0) ∧ ((0:ℚ) ≤ 0)) ∧
      ((runMain envZero).outcome = .emptyContent ∧ (runMain envZero).written = none ∧
        (runMain envZero).builtSeq = false ∧ (runMain envZero).exportAttempted = false) :=
  ⟨⟨by simp [envZero], lowerL_y, by norm_num [loadVideos, envZero], le_refl 0⟩,
    empty_content_aborts envZero [0] 0 (by simp [envZero]) lowerL_y
      (by norm_num [loadVideos, envZero]) (le_refl 0)⟩

/-- A concrete run environment where everything loads but the export raises. -/
def envExportFail : Env :=
  { video_paths := ["v.mp4".data]
    proceed_answer := "y".data
    load_video := fun _ => .ok (some 5)
    audio_paths := ["song.mp3".data]
    load_audio := fun _ => .ok (some 10)
    custom_name := []
    export_ok := false
    export_err := "boom".data
    fs := []
    desktop := "/d".data }

/-- Counterexample to C5: on the export-failure path the opened video handle
and the audio handle are not closed, contradicting the claim that handles are
closed whenever export finishes or fails. -/
theorem cleanup_skipped_on_export_error :
    (runMain envExportFail).outcome = .exportError ∧
      (runMain envExportFail).openedVideos = 1 ∧
      (runMain envExportFail).closedVideos = 0 ∧
      (runMain envExportFail).audioOpened = true ∧
      (runMain envExportFail).audioClosed = false := by
  norm_num [runMain, envExportFail, loadVideos, lowerL_y]

/-- C5 (amended): handles are all closed exactly on the success path; on every
other terminal path no close happens, so handles opened before an abort
(export failure, audio-stage cancellation, load errors, empty content) are
left open. -/
theorem cleanup_only_on_success (env : Env) :
    ((runMain env).outcome = .success →
      (runMain env).closedVideos = (runMain env).openedVideos ∧
        (runMain env).audioClosed = true ∧ (runMain env).audioOpened = true) ∧
    ((runMain env).outcome ≠ .success →
      (runMain env).closedVideos = 0 ∧ (runMain env).audioClosed = false) := by
  unfold runMain
  split
  · simp
  · split
    · simp
    · split
      · simp
      · split
        · simp
        · split
          · simp
          · split
            · simp
            · split
              · simp
              · simp

/-- A concrete successful run environment. -/
def envSuccess : Env := { envExportFail with export_ok := true }

/-- Witness for the amended C5 at a concrete successful run. -/
theorem cleanup_only_on_success_inst :
    (runMain envSuccess).outcome = .success ∧
      ((runMain envSuccess).closedVideos = (runMain envSuccess).openedVideos ∧
        (runMain envSuccess).audioClosed = true ∧ (runMain envSuccess).audioOpened = true) := by
  have h : (runMain envSuccess).outcome = .success := by
    norm_num [runMain, envSuccess, envExportFail, loadVideos, lowerL_y]
  exact ⟨h, (cleanup_only_on_success envSuccess).1 h⟩

/-- A concrete run environment whose audio file fails to load. -/
def envAudioFail : Env :=
  { video_paths := ["v.mp4".data]
    proceed_answer := "y".data
    load_video := fun _ => .ok (some 5)
    audio_paths := ["song.mp3".data]
    load_audio := fun _ => .error "boom".data
    custom_name := []
    export_ok := true
    export_err := []
    fs := []
    desktop := "/d".data }

/-- Counterexample to C6: the audio load error is reported as
"Audio error: boom", a message that does not contain the offending
filename "song.mp3". -/
theorem audio_error_message_lacks_filename :
    (runMain envAudioFail).outcome = .audioLoadError ∧
      (runMain envAudioFail).errorMsg = some ("Audio error: boom".data) ∧
      containsL "Audio error: boom".data (basenameL "song.mp3".data) = false := by
  refine ⟨?_, ?_, by decide⟩
  · norm_num [runMain, envAudioFail, loadVideos, lowerL_y]
  · norm_num [runMain, envAudioFail, loadVideos, lowerL_y]

/-- C6 (amended): every load or export error is caught and aborts the run with
an error message printed and no output file written; the video load error
message contains the offending filename, while the audio and export error
messages carry only the underlying error text, not the filename. -/
theorem fatal_errors_reported (env : Env) :
    (∀ clips msg, env.video_paths ≠ [] → lowerL env.proceed_answer = ['y'] →
      loadVideos env.load_video env.video_paths [] 0 = .error (clips, msg) →
      (runMain env).outcome = .videoLoadError ∧ (runMain env).errorMsg = some msg ∧
        (runMain env).written = none ∧
        ∃ p ∈ env.video_paths, containsL msg (basenameL p) = true) ∧
    (((runMain env).outcome = .audioLoadError ∨ (runMain env).outcome = .exportError) →
      (runMain env).written = none ∧ (runMain env).errorMsg.isSome = true) := by
  constructor
  · intro clips msg hv hy hload
    obtain ⟨p, hp, er, her, hmsg⟩ :=
      loadVideos_error_shape env.load_video env.video_paths [] 0 clips msg hload
    unfold runMain
    rw [if_neg hv, if_neg (by simp [hy]), hload]
    dsimp
    refine ⟨rfl, rfl, rfl, p, hp, ?_⟩
    rw [hmsg]
    exact containsL_append ('\n' :: "Error loading ".data) (basenameL p) (" -> ".data ++ er)
  · unfold runMain
    split
    · simp
    · split
      · simp
      · split
        · simp
        · split
          · simp
          · split
            · simp
            · split
              · simp
              · split
                · simp
                · simp

/-- A concrete run environment whose only video fails to load. -/
def envVideoFail : Env :=
  { video_paths := ["clip one.mov".data]
    proceed_answer := "y".data
    load_video := fun _ => .error "bad codec".data
    audio_paths := ["song.mp3".data]
    load_audio := fun _ => .ok (some 10)
    custom_name := []
    export_ok := true
    export_err := []
    fs := []
    desktop := "/d".data }

/-- The message printed for the failing video of `envVideoFail`. -/
def videoFailMsg : PStr :=
  '\n' :: ("Error loading ".data ++
    (basenameL "clip one.mov".data ++ (" -> ".data ++ "bad codec".data)))

/-- Witness for the amended C6 at a concrete failing video load. -/
theorem fatal_errors_reported_inst :
    (envVideoFail.video_paths ≠ [] ∧ lowerL envVideoFail.proceed_answer = ['y'] ∧
      loadVideos envVideoFail.load_video envVideoFail.video_paths [] 0 =
        .error ([], videoFailMsg)) ∧
      ((runMain envVideoFail).outcome = .videoLoadError ∧
        (runMain envVideoFail).errorMsg = some videoFailMsg ∧
        (runMain envVideoFail).written = none ∧
        ∃ p ∈ envVideoFail.video_paths, containsL videoFailMsg (basenameL p) = true) :=
  ⟨⟨by simp [envVideoFail], by decide, by simp [loadVideos, envVideoFail, videoFailMsg]⟩,
    (fatal_errors_reported envVideoFail).1 [] videoFailMsg (by simp [envVideoFail]) (by decide)
      (by simp [loadVideos, envVideoFail, videoFailMsg])⟩

/-- C9: the exit code is 1 exactly when the platform is not macOS; on macOS
the process exits 0 whatever the run's outcome. -/
theorem exit_code_darwin_only (platform : PStr) (env : Env) :
    (program platform env = 1 ↔ platform ≠ "darwin".data) ∧
      (platform = "darwin".data → program platform env = 0) := by
  unfold program
  by_cases h : platform = "darwin".data
  · simp [h]
  · simp [h]

/-- Witness for C9: on macOS even a run with a failing export exits 0. -/
theorem exit_code_darwin_only_inst :
    "darwin".data = "darwin".data ∧ program "darwin".data envExportFail = 0 :=
  ⟨rfl, (exit_code_darwin_only "darwin".data envExportFail).2 rfl⟩

end VideoStitcher
